import Mathlib

/-!
Shallow embedding of `src/streamlit_app.py` (PacRobo portfolio chat).

The script's data values are JSON; we model them with `JVal`.  Python dicts
are association lists `List (String × JVal)` (insertion ordered, first
occurrence wins on lookup, item assignment replaces in place or appends).
`requests.get` outcomes are abstracted by `ReqOutcome`; exceptions are
modelled with `Option`/`Except`; the Streamlit UI layer (rendering,
`st.warning`, `st.spinner`) performs no data-relevant work and is elided.
-/

/-- JSON-ish values flowing through the script.  `na` models `pandas.NA`,
which the script writes into the `portfolio_name` column. -/
inductive JVal where
  | str (s : String)
  | num (q : ℚ)
  | bool (b : Bool)
  | null
  | na
  | arr (l : List JVal)
  | obj (l : List (String × JVal))

/-- Python `d[k]` on a JSON value: succeeds only on a dict that has the key
(first occurrence); every other access (missing key, non-dict) raises, which
the embedding records as `none`. -/
def jLookup (v : JVal) (k : String) : Option JVal :=
  match v with
  | JVal.obj l => List.lookup k l
  | _ => none

/-- Python `d[k] = v` on a dict: replaces the first binding of `k` in place,
or appends a new binding at the end (dict insertion order). -/
def setKey : List (String × JVal) → String → JVal → List (String × JVal)
  | [], k, v => [(k, v)]
  | (k', v') :: rest, k, v =>
      if k' = k then (k, v) :: rest else (k', v') :: setKey rest k v

/-- Sign-aware decimal rendering of `x` when `x` is an exact multiple of
`1/100`, following Python's `str()` of the corresponding float (shortest
form, at least one digit after the point: `50 ↦ "50.0"`, `1/10 ↦ "0.1"`,
`1/4 ↦ "0.25"`).  Rationals outside that range never arise from the
script's 2-decimal rounding and get a fallback form. -/
def pyFloatStr (x : ℚ) : String :=
  if (x * 100).den = 1 then
    let k : ℤ := (x * 100).num
    let sign := if k < 0 then "-" else ""
    let a := k.natAbs
    let ip := a / 100
    let fr := a % 100
    if fr = 0 then sign ++ toString ip ++ ".0"
    else if fr % 10 = 0 then sign ++ toString ip ++ "." ++ toString (fr / 10)
    else if fr < 10 then sign ++ toString ip ++ ".0" ++ toString fr
    else sign ++ toString ip ++ "." ++ toString fr
  else "~" ++ toString x.num ++ "/" ++ toString x.den

/-- Python `str()` of a JSON scalar (`astype(str)` applies it cell-wise;
f-strings apply it to interpolated values).  Container reprs are not needed
by any claim and are abbreviated. -/
def pyStrOf : JVal → String
  | JVal.str s => s
  | JVal.num q => if q.den = 1 then toString q.num else pyFloatStr q
  | JVal.bool true => "True"
  | JVal.bool false => "False"
  | JVal.null => "None"
  | JVal.na => "<NA>"
  | JVal.arr _ => "<list repr>"
  | JVal.obj _ => "<dict repr>"

/-- Outcome of one `requests.get(url, timeout=10)` call: a success-status
response whose body parses to JSON (`success (some b)`), a success-status
response whose body fails to parse (`success none`, so `.json()` raises),
a non-success status, or an exception (timeout, connection error, ...). -/
inductive ReqOutcome where
  | success (body : Option JVal)
  | failStatus
  | exc

/-- The script's `safe_get`: try the request; on a success status return the
parsed JSON; on any exception (including one raised by `.json()`) or a
non-success status fall through to `return []`.  `world` maps each URL to
the outcome of requesting it.  Total: no exception ever escapes. -/
def safe_get (world : String → ReqOutcome) (url : String) : JVal :=
  match world url with
  | ReqOutcome.success (some b) => b
  | ReqOutcome.success none => JVal.arr []
  | ReqOutcome.failStatus => JVal.arr []
  | ReqOutcome.exc => JVal.arr []

/-- The script's `STOCK_PREDICTIONS_API` constant. -/
def STOCK_PREDICTIONS_API : String :=
  "http://10.10.0.106:8001/stock_predictions/list/get_by_portfolio_id"

/-- The predictions URL built per portfolio:
`f"{STOCK_PREDICTIONS_API}/{portfolio_id}"`. -/
def predictionsUrl (pid : JVal) : String :=
  STOCK_PREDICTIONS_API ++ "/" ++ pyStrOf pid

/-- The two key accesses `p["portfolio"]["portfolio_id"]` and
`p["portfolio"]["name"]`; `none` when either raises. -/
def portKeys (p : JVal) : Option (JVal × JVal) := do
  let port ← jLookup p "portfolio"
  let pid ← jLookup port "portfolio_id"
  let nm ← jLookup port "name"
  pure (pid, nm)

/-- Tag one prediction entry: `entry["portfolio_id"] = pid;
entry["portfolio_name"] = nm`.  Raises (`none`) when the entry is not a
dict. -/
def tagEntry (pid nm : JVal) : JVal → Option (List (String × JVal))
  | JVal.obj l => some (setKey (setKey l "portfolio_id" pid) "portfolio_name" nm)
  | _ => none

/-- The tagging loop over one portfolio's predictions; an exception on any
entry aborts the whole portfolio (nothing of it is extended). -/
def tagEntries (pid nm : JVal) : List JVal → Option (List (List (String × JVal)))
  | [] => some []
  | e :: es => do
      let r ← tagEntry pid nm e
      let rest ← tagEntries pid nm es
      pure (r :: rest)

/-- The body of the `try:` block for one portfolio record: read the two
keys, fetch the predictions for the built URL, tag them.  `preds` maps a
predictions URL to the (already fail-softened) list `safe_get` returned for
it.  `none` models the caught exception (`continue`). -/
def tryProcessPortfolio (preds : String → List JVal) (p : JVal) :
    Option (List (List (String × JVal))) :=
  match portKeys p with
  | none => none
  | some (pid, nm) => tagEntries pid nm (preds (predictionsUrl pid))

/-- One step of the accumulation loop: `all_predictions.extend(predictions)`
on success, `continue` on a caught exception. -/
def accStep (preds : String → List JVal)
    (acc : List (List (String × JVal))) (p : JVal) :
    List (List (String × JVal)) :=
  match tryProcessPortfolio preds p with
  | some tagged => acc ++ tagged
  | none => acc

/-- The flat table `pd.DataFrame(...)` built from the tagged rows: column
names in order of first appearance, rows as the underlying dicts. -/
structure PDF where
  columns : List String
  rows : List (List (String × JVal))

/-- Column labels of a row list in order of first appearance, as
`pd.DataFrame` computes them from a list of dicts. -/
def collectColumns (rows : List (List (String × JVal))) : List String :=
  rows.foldl
    (fun acc r => acc ++ ((r.map Prod.fst).filter (fun k => !(acc.contains k)))) []

/-- Python `str.strip()` (no argument): the string without leading and
trailing whitespace, computed structurally on the character list. -/
def pyStrip (s : String) : String :=
  ⟨(((s.data.dropWhile Char.isWhitespace).reverse.dropWhile Char.isWhitespace).reverse)⟩

/-- The column transform `astype(str).replace("nan", pd.NA)` applied to one
cell of the `portfolio_name` column; a row missing the column holds float
`NaN`, whose `astype(str)` image is exactly the replaced `"nan"`. -/
def normVal : Option JVal → JVal
  | none => JVal.na
  | some v => let s := pyStrOf v; if s = "nan" then JVal.na else JVal.str s

/-- Rewrite of one row by the `portfolio_name` column assignment. -/
def normRow (r : List (String × JVal)) : List (String × JVal) :=
  setKey r "portfolio_name" (normVal (List.lookup "portfolio_name" r))

/-- The post-processing of the non-empty frame: strip whitespace from the
column names, then normalize the `portfolio_name` column when present. -/
def mkPredictionsDF (rows : List (List (String × JVal))) : PDF :=
  let stripped := rows.map (fun r => r.map (fun kv => (pyStrip kv.1, kv.2)))
  let cols := collectColumns stripped
  let rows2 := if "portfolio_name" ∈ cols then stripped.map normRow else stripped
  { columns := cols, rows := rows2 }

/-- The script's `get_portfolio_predictions_df`.  `portfolios` is the JSON
array `safe_get(PORTFOLIO_API)` produced (the empty list on failure, so the
`if not portfolios` guard covers both "call failed" and "empty list");
`preds` gives each predictions URL's fail-softened response.  The
`st.warning` call on the empty path is UI-only and elided.  Both empty
paths return `pd.DataFrame(columns=["portfolio_name"])`. -/
def get_portfolio_predictions_df (portfolios : List JVal)
    (preds : String → List JVal) : PDF :=
  if portfolios.isEmpty then { columns := ["portfolio_name"], rows := [] }
  else
    let all_predictions := portfolios.foldl (accStep preds) []
    if all_predictions.isEmpty then { columns := ["portfolio_name"], rows := [] }
    else mkPredictionsDF all_predictions

/-- One row of the numeric frame the Prompt Builder works on: the three
required numeric columns, plus the two columns `summarize_portfolio`
assigns (absent, i.e. `none`, until it runs).  Further columns of the real
frame play no part in any computation and are omitted. -/
structure NRow where
  purchase_price : ℚ
  current_price : ℚ
  quantity : ℚ
  total_purchase : Option ℚ
  total_current : Option ℚ
deriving DecidableEq

/-- The numeric frame: its ordered rows. -/
abbrev DFn := List NRow

/-- Floor of a rational, computed on its reduced numerator/denominator. -/
def ratFloor (x : ℚ) : ℤ := Int.fdiv x.num x.den

/-- Round half to even on an exact rational, as Python's builtin `round`
ties-break; the binary-float representation error of the real call is not
modelled (no claim depends on a tie). -/
def roundHalfEven (x : ℚ) : ℤ :=
  let f := ratFloor x
  let r := x - (f : ℚ)
  if r < 1 / 2 then f
  else if 1 / 2 < r then f + 1
  else if f % 2 = 0 then f else f + 1

/-- Python `round(x, 2)` on an exact rational. -/
def pyRound2 (x : ℚ) : ℚ := (roundHalfEven (x * 100) : ℚ) / 100

/-- The script's `summarize_portfolio`: assigns the two product columns on
the frame itself (mutation, returned here as the second component) and
returns the 2-rounded sums of those columns. -/
def summarize_portfolio (df : DFn) : (ℚ × ℚ) × DFn :=
  let df1 : DFn := df.map (fun r => { r with total_purchase := some (r.purchase_price * r.quantity) })
  let df2 : DFn := df1.map (fun r => { r with total_current := some (r.current_price * r.quantity) })
  ((pyRound2 ((df2.map (fun r => r.total_purchase.getD 0)).sum),
    pyRound2 ((df2.map (fun r => r.total_current.getD 0)).sum)), df2)

/-- One CSV cell; an absent cell renders empty as `to_csv` does. -/
def csvCell : Option ℚ → String
  | none => ""
  | some q => pyFloatStr q

/-- One CSV line of the numeric frame. -/
def rowCsv (r : NRow) : String :=
  pyFloatStr r.purchase_price ++ "," ++ pyFloatStr r.current_price ++ ","
    ++ pyFloatStr r.quantity ++ "," ++ csvCell r.total_purchase ++ ","
    ++ csvCell r.total_current ++ "\n"

/-- `df.to_csv(index=False)` on the numeric frame: header line then one
line per row. -/
def dfToCsv (df : DFn) : String :=
  "purchase_price,current_price,quantity,total_purchase,total_current\n"
    ++ String.join (df.map rowCsv)

/-- Template text before the interpolated portfolio name. -/
def promptSeg1 : String :=
  "\nYou are a professional financial analyst. You are given all stock-level data for the portfolio named \""

/-- Template text between the portfolio name and the CSV preview. -/
def promptSeg2 : String :=
  "\". Use this complete information to answer the user's question intelligently.\nNow respond to the user’s question politely. Keep it conversational, concise, and helpful — like you're chatting with them directly. Avoid over-explaining, and skip any redundant analysis unless asked.\nIf the user just greets you (e.g., says \"hello\", \"how are you\", etc.), feel free to respond casually — like \"Hi there! How can I help you with your portfolio today?\"\n\nAvoid repeating data unless asked. Just be helpful, human-like, and straight to the point.\nHere is the full portfolio data:\n"

/-- Template text between the preview and the first total. -/
def promptSeg3 : String :=
  "\n\n\n- Total Purchase Value (quantity × purchase_price): $"

/-- Template text between the two totals. -/
def promptSeg4 : String :=
  "\n- Total Current Value (quantity × current_price): $"

/-- Template text between the second total and the user question. -/
def promptSeg5 : String :=
  "\n\nNow answer the question below clearly and accurately based ONLY on the data above:\n\nUser's Question:\n"

/-- Template text after the user question. -/
def promptSeg6 : String := "\nRespond in a structured manner.\n"

/-- The f-string template of `create_prompt`; the totals interpolate via
Python's `str()` of the rounded float (`pyFloatStr`). -/
def promptText (portfolio_name preview : String) (tp tc : ℚ)
    (user_query : String) : String :=
  promptSeg1 ++ (portfolio_name ++ (promptSeg2 ++ (preview ++ (promptSeg3
    ++ (pyFloatStr tp ++ (promptSeg4 ++ (pyFloatStr tc ++ (promptSeg5
    ++ (user_query ++ promptSeg6)))))))))

/-- The script's `create_prompt`: summarize (which mutates the frame),
serialize the now-mutated frame to CSV, and fill the template.  The
returned pair carries the prompt and the frame's state after the call. -/
def create_prompt (df : DFn) (portfolio_name user_query : String) :
    String × DFn :=
  let res := summarize_portfolio df
  let total_purchase := res.1.1
  let total_current := res.1.2
  let df2 := res.2
  let preview := dfToCsv df2
  (promptText portfolio_name preview total_purchase total_current user_query, df2)

/-- One chat log entry `{"role": ..., "content": ...}`. -/
structure ChatMsg where
  role : String
  content : String
deriving DecidableEq

/-- Outcome of one Groq chat-completion call: a reply text, or a raised
exception (network failure, auth failure, a `None` content, ...). -/
inductive LLMOutcome where
  | reply (text : String)
  | exc

/-- The script's `query_llm`: no try/except — it returns the stripped
reply text, and any provider exception propagates (`Except.error`). -/
def query_llm (provider : String → LLMOutcome) (prompt : String) :
    Except Unit String :=
  match provider prompt with
  | LLMOutcome.reply t => Except.ok (pyStrip t)
  | LLMOutcome.exc => Except.error ()

/-- The `if user_input:` turn handler: append the user message to the
session log, build the prompt, call the LLM.  On success append the
assistant message and rerun (`Except.ok log`); on a provider exception the
script run aborts with the log as already mutated (`Except.error log`) —
Streamlit keeps `session_state.chat_history`, so the dangling user message
survives. -/
def chatTurn (chat_history : List ChatMsg) (filtered_df : DFn)
    (selected_portfolio user_input : String)
    (provider : String → LLMOutcome) :
    Except (List ChatMsg) (List ChatMsg) :=
  let hist1 := chat_history ++ [{ role := "user", content := user_input }]
  let prompt := (create_prompt filtered_df selected_portfolio user_input).1
  match query_llm provider prompt with
  | Except.error _ => Except.error hist1
  | Except.ok response =>
      Except.ok (hist1 ++ [{ role := "assistant", content := response }])

/-- The session log left behind by a turn, whether it ended normally or by
a propagated exception. -/
def sessionLog : Except (List ChatMsg) (List ChatMsg) → List ChatMsg
  | Except.ok l => l
  | Except.error l => l

/-- Prefix test on character lists. -/
def isPrefixChars : List Char → List Char → Bool
  | [], _ => true
  | _ :: _, [] => false
  | a :: as, b :: bs => a == b && isPrefixChars as bs

/-- Substring (contiguous) test on character lists. -/
def infixChars (pat : List Char) : List Char → Bool
  | [] => isPrefixChars pat []
  | c :: rest => isPrefixChars pat (c :: rest) || infixChars pat rest

/-- Whether `pat` occurs verbatim inside `s`. -/
def containsStr (s pat : String) : Bool := infixChars pat.data s.data

/-- Modelled from the spec: a total "formatted to 2 decimal places" — the
fixed-two-decimals rendering of an exact multiple of `1/100`, for
comparison against what the code actually interpolates. -/
def specFormat2dp (x : ℚ) : String :=
  if (x * 100).den = 1 then
    let k : ℤ := (x * 100).num
    let sign := if k < 0 then "-" else ""
    let a := k.natAbs
    let fr := a % 100
    sign ++ toString (a / 100) ++ "."
      ++ (if fr < 10 then "0" ++ toString fr else toString fr)
  else "~"

/-- Total version of one entry's tagging (the value `tagEntry` succeeds
with; `[]` on a non-dict, a case the well-formedness hypotheses rule out). -/
def tagOf (pid nm : JVal) : JVal → List (String × JVal)
  | JVal.obj l => setKey (setKey l "portfolio_id" pid) "portfolio_name" nm
  | _ => []

/-- A well-formed prediction entry: a JSON object whose keys carry no
surrounding whitespace (so the fetcher's column strip leaves them alone). -/
def EntryOk (e : JVal) : Prop :=
  ∃ l, e = JVal.obj l ∧ ∀ kv ∈ l, pyStrip kv.1 = kv.1

/-- Modelled from the spec: the rows the merged table should hold for one
portfolio record — "each tagged with the correct portfolio_id /
portfolio_name" — with the name routed through the code's
`astype(str).replace("nan", pd.NA)` normalization.  Used to compare the
fetcher's output against the spec's description. -/
def specTaggedRows (preds : String → List JVal) (p : JVal) :
    List (List (String × JVal)) :=
  match portKeys p with
  | some (pid, JVal.str s) =>
      (preds (predictionsUrl pid)).map (fun e =>
        match e with
        | JVal.obj l =>
            setKey (setKey l "portfolio_id" pid) "portfolio_name"
              (if s = "nan" then JVal.na else JVal.str s)
        | _ => [])
  | _ => []

/-! Helper lemmas (shared; none is a claim's theorem). -/

/-- Concrete run of `summarize_portfolio` on the spec's sample row. -/
lemma summarize_concrete :
    summarize_portfolio [⟨10, 12, 5, none, none⟩]
      = ((50, 60), [⟨10, 12, 5, some 50, some 60⟩]) := by
  with_unfolding_all rfl

/-- C5: for every frame, `summarize_portfolio` returns the 2-rounded sums of
the per-row products; on the single row (10, 12, 5) it returns (50.0, 60.0). -/
theorem summarize_portfolio_totals :
    (∀ df : DFn,
      (summarize_portfolio df).1
        = (pyRound2 ((df.map (fun r => r.purchase_price * r.quantity)).sum),
           pyRound2 ((df.map (fun r => r.current_price * r.quantity)).sum)))
    ∧ (summarize_portfolio [⟨10, 12, 5, none, none⟩]).1 = (50, 60) := by
  constructor
  · intro df
    simp only [summarize_portfolio, List.map_map, Prod.mk.injEq]
    refine ⟨?_, ?_⟩ <;>
      exact congrArg _ (congrArg _ (List.map_congr_left fun r _ => rfl))
  · rw [summarize_concrete]

/-- C9: calling `summarize_portfolio` again on the frame left behind by a
first call (the frame the first call mutated) returns the same totals. -/
theorem summarize_portfolio_idempotent :
    ∀ df : DFn,
      (summarize_portfolio (summarize_portfolio df).2).1
        = (summarize_portfolio df).1 := by
  intro df
  simp only [summarize_portfolio, List.map_map, Prod.mk.injEq]
  refine ⟨?_, ?_⟩ <;>
    exact congrArg _ (congrArg _ (List.map_congr_left fun r _ => rfl))

/-- C3 counterexample: `create_prompt` does not leave its input frame
unchanged — on the sample row it comes back with the two total columns
assigned. -/
theorem create_prompt_mutates_cex :
    (create_prompt [⟨10, 12, 5, none, none⟩] "P" "q").2
      ≠ [⟨10, 12, 5, none, none⟩] := by
  with_unfolding_all decide

/-- C3 (amended): `create_prompt` is a deterministic function of its inputs,
but it does mutate the input frame: the frame after the call is the input
with `total_purchase` and `total_current` assigned to the per-row products
(all other columns unchanged). -/
theorem create_prompt_mutation :
    ∀ (df : DFn) (portfolio_name user_query : String),
      (create_prompt df portfolio_name user_query).2
        = df.map (fun r =>
            { r with total_purchase := some (r.purchase_price * r.quantity),
                     total_current := some (r.current_price * r.quantity) }) := by
  intro df n q
  simp only [create_prompt, summarize_portfolio, List.map_map]
  exact List.map_congr_left fun r _ => rfl

/-- C8: `safe_get` returns the parsed body on a success status, and the
empty list on an exception (timeout included) or a non-success status;
being a total function of the request outcome, it propagates nothing. -/
theorem safe_get_spec :
    ∀ (world : String → ReqOutcome) (url : String),
      (∀ b, world url = ReqOutcome.success (some b) → safe_get world url = b)
      ∧ (world url = ReqOutcome.exc → safe_get world url = JVal.arr [])
      ∧ (world url = ReqOutcome.failStatus → safe_get world url = JVal.arr []) := by
  intro w u
  refine ⟨fun b h => ?_, fun h => ?_, fun h => ?_⟩ <;> simp [safe_get, h]

/-- Witness for `safe_get_spec` at a concrete failing world. -/
theorem safe_get_spec_witness :
    safe_get (fun _ => ReqOutcome.exc) "http://10.10.0.106:8001/x" = JVal.arr [] :=
  (safe_get_spec (fun _ => ReqOutcome.exc) "http://10.10.0.106:8001/x").2.1 rfl

/-- C1 counterexample: with the LLM call raising, the turn handler ends in a
propagated exception (`isOk = false`) and the log holds only the user
message — no assistant apology is appended. -/
theorem chat_turn_llm_failure_cex :
    (chatTurn [] [] "P" "hi" (fun _ => LLMOutcome.exc)).isOk = false
    ∧ chatTurn [] [] "P" "hi" (fun _ => LLMOutcome.exc)
        = Except.error [{ role := "user", content := "hi" }] :=
  ⟨rfl, rfl⟩

/-- C1 (amended): when the completion call raises, `query_llm` has no
handler, so the exception propagates out of the turn handler; the session
log keeps the appended user message and gains no assistant message. -/
theorem chat_turn_llm_failure_propagates :
    ∀ (chat_history : List ChatMsg) (filtered_df : DFn)
      (selected_portfolio user_input : String)
      (provider : String → LLMOutcome),
      provider ((create_prompt filtered_df selected_portfolio user_input).1)
          = LLMOutcome.exc →
      chatTurn chat_history filtered_df selected_portfolio user_input provider
        = Except.error
            (chat_history ++ [{ role := "user", content := user_input }]) := by
  intro hist df sel input prov h
  simp [chatTurn, query_llm, h]

/-- Witness for `chat_turn_llm_failure_propagates`. -/
theorem chat_turn_llm_failure_propagates_witness :
    chatTurn [] [] "W1" "hello" (fun _ => LLMOutcome.exc)
      = Except.error [{ role := "user", content := "hello" }] := by
  simpa using
    chat_turn_llm_failure_propagates [] [] "W1" "hello" (fun _ => LLMOutcome.exc) rfl

/-- C2 counterexample: on a turn whose LLM call raises, the log grows by 1
(the user message), not by 2. -/
theorem chat_turn_growth_cex :
    (sessionLog (chatTurn [] [] "Q" "yo" (fun _ => LLMOutcome.exc))).length
        ≠ ([] : List ChatMsg).length + 2
    ∧ chatTurn [] [] "Q" "yo" (fun _ => LLMOutcome.exc)
        = Except.error [{ role := "user", content := "yo" }] :=
  ⟨by decide, rfl⟩

/-- C2 (amended): on a successful turn the log grows by exactly the user
message followed by the assistant message; on a turn whose LLM call raises
it grows by the user message only and the exception propagates. -/
theorem chat_turn_log_growth :
    ∀ (chat_history : List ChatMsg) (filtered_df : DFn)
      (selected_portfolio user_input : String)
      (provider : String → LLMOutcome),
      (∀ t,
        provider ((create_prompt filtered_df selected_portfolio user_input).1)
            = LLMOutcome.reply t →
        chatTurn chat_history filtered_df selected_portfolio user_input provider
          = Except.ok
              (chat_history ++ [{ role := "user", content := user_input },
                { role := "assistant", content := pyStrip t }]))
      ∧ (provider ((create_prompt filtered_df selected_portfolio user_input).1)
            = LLMOutcome.exc →
        chatTurn chat_history filtered_df selected_portfolio user_input provider
          = Except.error
              (chat_history ++ [{ role := "user", content := user_input }])) := by
  intro hist df sel input prov
  constructor
  · intro t h
    simp [chatTurn, query_llm, h]
  · intro h
    simp [chatTurn, query_llm, h]

/-- Witness for `chat_turn_log_growth` on a successful concrete turn. -/
theorem chat_turn_log_growth_witness :
    chatTurn [] [] "W2" "hey" (fun _ => LLMOutcome.reply " sure ")
      = Except.ok [{ role := "user", content := "hey" },
          { role := "assistant", content := "sure" }] := by
  have h := (chat_turn_log_growth [] [] "W2" "hey"
      (fun _ => LLMOutcome.reply " sure ")).1 " sure " rfl
  exact h

/-- Prefix of an appended continuation. -/
lemma isPrefixChars_self_append (pat rest : List Char) :
    isPrefixChars pat (pat ++ rest) = true := by
  induction pat with
  | nil => rfl
  | cons a as ih => simp [isPrefixChars, ih]

/-- A prefix occurrence is an occurrence. -/
lemma infixChars_of_prefix (pat l : List Char)
    (h : isPrefixChars pat l = true) : infixChars pat l = true := by
  cases l with
  | nil => simpa [infixChars] using h
  | cons c rest => simp [infixChars, h]

/-- Occurrences survive consing on the left. -/
lemma infixChars_extend (pat l : List Char) (c : Char)
    (h : infixChars pat l = true) : infixChars pat (c :: l) = true := by
  simp [infixChars, h]

/-- Occurrences survive appending on the left. -/
lemma infixChars_append_left (pat x l : List Char)
    (h : infixChars pat l = true) : infixChars pat (x ++ l) = true := by
  induction x with
  | nil => simpa using h
  | cons c cs ih => simpa using infixChars_extend pat (cs ++ l) c ih

/-- A string occurs in itself followed by anything. -/
lemma containsStr_head (b c : String) : containsStr (b ++ c) b = true := by
  show infixChars b.data (b ++ c).data = true
  rw [String.data_append]
  exact infixChars_of_prefix _ _ (isPrefixChars_self_append b.data c.data)

/-- An occurrence survives prepending a string. -/
lemma containsStr_skip (a s b : String) (h : containsStr s b = true) :
    containsStr (a ++ s) b = true := by
  show infixChars b.data (a ++ s).data = true
  rw [String.data_append]
  exact infixChars_append_left _ _ _ h

/-- C6 (amended): the prompt contains, verbatim, the portfolio name, the
user question, and Python's `str()` rendering of both rounded totals —
which is not in general a 2-decimal-place rendering. -/
theorem prompt_contains_fields :
    ∀ (df : DFn) (portfolio_name user_query : String),
      containsStr (create_prompt df portfolio_name user_query).1 portfolio_name = true
      ∧ containsStr (create_prompt df portfolio_name user_query).1 user_query = true
      ∧ containsStr (create_prompt df portfolio_name user_query).1
          (pyFloatStr (summarize_portfolio df).1.1) = true
      ∧ containsStr (create_prompt df portfolio_name user_query).1
          (pyFloatStr (summarize_portfolio df).1.2) = true := by
  intro df n q
  refine ⟨?_, ?_, ?_, ?_⟩
  · exact containsStr_skip promptSeg1 _ _ (containsStr_head n _)
  · exact containsStr_skip promptSeg1 _ _ (containsStr_skip n _ _
      (containsStr_skip promptSeg2 _ _ (containsStr_skip (dfToCsv (summarize_portfolio df).2) _ _
      (containsStr_skip promptSeg3 _ _ (containsStr_skip (pyFloatStr (summarize_portfolio df).1.1) _ _
      (containsStr_skip promptSeg4 _ _ (containsStr_skip (pyFloatStr (summarize_portfolio df).1.2) _ _
      (containsStr_skip promptSeg5 _ _ (containsStr_head q promptSeg6)))))))))
  · exact containsStr_skip promptSeg1 _ _ (containsStr_skip n _ _
      (containsStr_skip promptSeg2 _ _ (containsStr_skip (dfToCsv (summarize_portfolio df).2) _ _
      (containsStr_skip promptSeg3 _ _ (containsStr_head (pyFloatStr (summarize_portfolio df).1.1) _)))))
  · exact containsStr_skip promptSeg1 _ _ (containsStr_skip n _ _
      (containsStr_skip promptSeg2 _ _ (containsStr_skip (dfToCsv (summarize_portfolio df).2) _ _
      (containsStr_skip promptSeg3 _ _ (containsStr_skip (pyFloatStr (summarize_portfolio df).1.1) _ _
      (containsStr_skip promptSeg4 _ _ (containsStr_head (pyFloatStr (summarize_portfolio df).1.2) _)))))))

set_option maxRecDepth 20000 in
/-- C6 counterexample: on the sample frame the totals are 50 and 60; their
2-decimal renderings ("50.00") do not occur anywhere in the prompt — the
code interpolates `str(50.0) = "50.0"` instead. -/
theorem prompt_two_decimals_cex :
    containsStr ((create_prompt [⟨10, 12, 5, none, none⟩] "Growth" "How is it doing?").1)
        (specFormat2dp (summarize_portfolio [⟨10, 12, 5, none, none⟩]).1.1) = false
    ∧ specFormat2dp (summarize_portfolio [⟨10, 12, 5, none, none⟩]).1.1 = "50.00" := by
  constructor
  · with_unfolding_all rfl
  · with_unfolding_all rfl

/-- The accumulation loop in closed form: whatever each portfolio record
contributes (nothing when its processing raised), flattened. -/
lemma foldl_accStep (preds : String → List JVal) :
    ∀ (l : List JVal) (acc : List (List (String × JVal))),
      l.foldl (accStep preds) acc
        = acc ++ (l.map (fun p => (tryProcessPortfolio preds p).getD [])).flatten := by
  intro l
  induction l with
  | nil => intro acc; simp
  | cons p t ih =>
      intro acc
      simp only [List.foldl_cons, List.map_cons, List.flatten_cons]
      rw [ih]
      cases h : tryProcessPortfolio preds p <;>
        simp [accStep, h, List.append_assoc]

/-- C7: when the portfolio listing failed or was empty, or every
per-portfolio sub-fetch failed (so `safe_get` yielded `[]` everywhere),
the fetcher returns the empty frame that still has the `portfolio_name`
column; being total, it raises nothing. -/
theorem fetcher_empty_soft :
    ∀ (portfolios : List JVal) (preds : String → List JVal),
      (portfolios = [] ∨ ∀ u, preds u = []) →
      get_portfolio_predictions_df portfolios preds
        = { columns := ["portfolio_name"], rows := [] } := by
  intro P preds h
  rcases h with h | h
  · subst h; rfl
  · have hall : P.foldl (accStep preds) [] = [] := by
      rw [foldl_accStep]
      simp only [List.nil_append]
      rw [List.flatten_eq_nil_iff]
      intro l hl
      rcases List.mem_map.mp hl with ⟨p, _, rfl⟩
      cases hk : portKeys p with
      | none => simp [tryProcessPortfolio, hk]
      | some pr =>
          simp only [tryProcessPortfolio, hk, tagEntries, h]
          rfl
    by_cases hPE : P.isEmpty <;>
      simp [get_portfolio_predictions_df, hPE, hall]

/-- Witness for `fetcher_empty_soft`: the failed-listing case. -/
theorem fetcher_empty_soft_witness :
    get_portfolio_predictions_df [] (fun _ => [])
      = { columns := ["portfolio_name"], rows := [] } :=
  fetcher_empty_soft [] (fun _ => []) (Or.inl rfl)

/-- C10: a listing record whose nested key accesses raise is skipped by the
caught `try`, and removing it from the listing changes nothing: the
well-formed records' tagged predictions are still returned, with no
exception escaping. -/
theorem fetcher_skips_malformed :
    ∀ (pre post : List JVal) (bad : JVal) (preds : String → List JVal),
      portKeys bad = none →
      get_portfolio_predictions_df (pre ++ bad :: post) preds
        = get_portfolio_predictions_df (pre ++ post) preds := by
  intro pre post bad preds hbad
  have hbadc : (tryProcessPortfolio preds bad).getD [] = [] := by
    simp [tryProcessPortfolio, hbad]
  have hfold :
      (pre ++ bad :: post).foldl (accStep preds) []
        = (pre ++ post).foldl (accStep preds) [] := by
    rw [foldl_accStep, foldl_accStep]
    simp [hbadc]
  have h1 : (pre ++ bad :: post).isEmpty = false := by
    cases pre <;> simp
  cases hpp : (pre ++ post).isEmpty with
  | true =>
      have hpre : pre = [] := by
        cases pre with
        | nil => rfl
        | cons a t => simp at hpp
      subst hpre
      have hpost : post = [] := by simpa using hpp
      subst hpost
      simp [get_portfolio_predictions_df, accStep, tryProcessPortfolio, hbad]
  | false =>
      simp only [get_portfolio_predictions_df, h1, hpp, Bool.false_eq_true,
        if_false, hfold]

/-- Witness for `fetcher_skips_malformed` at a concrete listing holding one
well-formed and one malformed record. -/
theorem fetcher_skips_malformed_witness :
    get_portfolio_predictions_df
        [JVal.obj [("portfolio",
            JVal.obj [("portfolio_id", JVal.str "1"), ("name", JVal.str "Alpha")])],
          JVal.str "garbage"]
        (fun _ => [JVal.obj [("ticker", JVal.str "ACME")]])
      = get_portfolio_predictions_df
          [JVal.obj [("portfolio",
              JVal.obj [("portfolio_id", JVal.str "1"), ("name", JVal.str "Alpha")])]]
          (fun _ => [JVal.obj [("ticker", JVal.str "ACME")]]) :=
  fetcher_skips_malformed
    [JVal.obj [("portfolio",
        JVal.obj [("portfolio_id", JVal.str "1"), ("name", JVal.str "Alpha")])]]
    [] (JVal.str "garbage") (fun _ => [JVal.obj [("ticker", JVal.str "ACME")]]) rfl

/-- Everything in `setKey l k v` is the new binding or an old one. -/
lemma mem_setKey (l : List (String × JVal)) (k : String) (v : JVal) :
    ∀ a ∈ setKey l k v, a = (k, v) ∨ a ∈ l := by
  induction l with
  | nil => intro a ha; simp [setKey] at ha; exact Or.inl ha
  | cons kv t ih =>
      intro a ha
      rcases kv with ⟨k', v'⟩
      by_cases hk : k' = k
      · simp [setKey, hk] at ha
        rcases ha with h | h
        · exact Or.inl h
        · exact Or.inr (List.mem_cons_of_mem _ h)
      · simp [setKey, hk] at ha
        rcases ha with h | h
        · exact Or.inr (by simp [h])
        · rcases ih a h with h1 | h1
          · exact Or.inl h1
          · exact Or.inr (List.mem_cons_of_mem _ h1)

/-- `setKey` guarantees the key is present. -/
lemma key_mem_setKey (l : List (String × JVal)) (k : String) (v : JVal) :
    k ∈ (setKey l k v).map Prod.fst := by
  induction l with
  | nil => simp [setKey]
  | cons kv t ih =>
      rcases kv with ⟨k', v'⟩
      by_cases hk : k' = k <;> simp [setKey, hk, ih]

/-- Looking the key up after `setKey` yields the new value. -/
lemma lookup_setKey_self (l : List (String × JVal)) (k : String) (v : JVal) :
    List.lookup k (setKey l k v) = some v := by
  induction l with
  | nil => simp [setKey, List.lookup]
  | cons kv t ih =>
      rcases kv with ⟨k', v'⟩
      by_cases hk : k' = k
      · simp [setKey, hk, List.lookup]
      · have hne : (k == k') = false := beq_eq_false_iff_ne.mpr (Ne.symm hk)
        simp [setKey, hk, List.lookup, hne, ih]

/-- Re-assigning the same key overwrites the earlier assignment. -/
lemma setKey_setKey_same (l : List (String × JVal)) (k : String) (v w : JVal) :
    setKey (setKey l k v) k w = setKey l k w := by
  induction l with
  | nil => simp [setKey]
  | cons kv t ih =>
      rcases kv with ⟨k', v'⟩
      by_cases hk : k' = k
      · simp [setKey, hk]
      · simp [setKey, hk, ih]

/-- On well-formed entries the tagging loop raises nothing and produces the
tagged rows. -/
lemma tagEntries_ok (pid nm : JVal) :
    ∀ (es : List JVal), (∀ e ∈ es, EntryOk e) →
      tagEntries pid nm es = some (es.map (tagOf pid nm)) := by
  intro es
  induction es with
  | nil => intro _; rfl
  | cons e t ih =>
      intro h
      have ht := ih (fun x hx => h x (List.mem_cons_of_mem _ hx))
      rcases h e (List.mem_cons_self e t) with ⟨l, rfl, _⟩
      simp [tagEntries, tagEntry, tagOf, ht]

/-- Stripping column names is the identity on a tagged well-formed entry. -/
lemma strip_tagOf (pid nm : JVal) (e : JVal) (he : EntryOk e) :
    (tagOf pid nm e).map (fun kv => (pyStrip kv.1, kv.2)) = tagOf pid nm e := by
  rcases he with ⟨l, rfl, hkeys⟩
  have hpt : ∀ a ∈ tagOf pid nm (JVal.obj l),
      (fun kv => (pyStrip kv.1, kv.2)) a = id a := by
    intro a ha
    rcases mem_setKey _ _ _ a ha with h | h
    · subst h; rfl
    · rcases mem_setKey _ _ _ a h with h2 | h2
      · subst h2; rfl
      · have hs := hkeys a h2
        show (pyStrip a.1, a.2) = a
        rw [hs]
  exact (List.map_congr_left hpt).trans (List.map_id _)

/-- The `portfolio_name` rewrite on a freshly tagged row replaces the tag
with its `astype(str).replace("nan", pd.NA)` image. -/
lemma normRow_tagOf (pid : JVal) (s : String) (l : List (String × JVal)) :
    normRow (tagOf pid (JVal.str s) (JVal.obj l))
      = setKey (setKey l "portfolio_id" pid) "portfolio_name"
          (if s = "nan" then JVal.na else JVal.str s) := by
  unfold normRow tagOf
  rw [lookup_setKey_self, setKey_setKey_same]
  simp [normVal, pyStrOf]

/-- Accumulated membership for `collectColumns`. -/
lemma mem_collectColumns_aux (k : String) :
    ∀ (rows : List (List (String × JVal))) (acc : List String),
      (k ∈ acc ∨ ∃ r ∈ rows, k ∈ r.map Prod.fst) →
      k ∈ rows.foldl
        (fun acc r => acc ++ ((r.map Prod.fst).filter (fun x => !(acc.contains x)))) acc := by
  intro rows
  induction rows with
  | nil =>
      intro acc h
      rcases h with h | ⟨r, hr, _⟩
      · simpa using h
      · simp at hr
  | cons r t ih =>
      intro acc h
      simp only [List.foldl_cons]
      apply ih
      rcases h with h | ⟨r', hr', hk⟩
      · exact Or.inl (List.mem_append_left _ h)
      · rcases List.mem_cons.mp hr' with rfl | hr'
        · by_cases hacc : k ∈ acc
          · exact Or.inl (List.mem_append_left _ hacc)
          · exact Or.inl (List.mem_append_right _
              (List.mem_filter.mpr ⟨hk, by simpa using hacc⟩))
        · exact Or.inr ⟨r', hr', hk⟩

/-- A key present in some row is a collected column label. -/
lemma mem_collectColumns (rows : List (List (String × JVal))) (k : String)
    (r : List (String × JVal)) (hr : r ∈ rows) (hk : k ∈ r.map Prod.fst) :
    k ∈ collectColumns rows :=
  mem_collectColumns_aux k rows [] (Or.inr ⟨r, hr, hk⟩)

/-- C4 (amended): for well-formed listing and predictions responses the
merged table holds exactly the sum over portfolios of their predictions,
flattened in listing order, every row tagged with its portfolio's id and
with its name as the script normalizes it (the literal name string, or
`pd.NA` for a portfolio literally named "nan"). -/
theorem fetcher_merge_correct :
    ∀ (portfolios : List JVal) (preds : String → List JVal),
      (∀ p ∈ portfolios, ∃ pid s, portKeys p = some (pid, JVal.str s)) →
      (∀ u, ∀ e ∈ preds u, EntryOk e) →
      (get_portfolio_predictions_df portfolios preds).rows
          = (portfolios.map (specTaggedRows preds)).flatten
      ∧ (get_portfolio_predictions_df portfolios preds).rows.length
          = (portfolios.map (fun p =>
              match portKeys p with
              | some (pid, _) => (preds (predictionsUrl pid)).length
              | none => 0)).sum := by
  intro P preds hwf hpreds
  have hforms : ∀ p ∈ P, ∃ pid s, portKeys p = some (pid, JVal.str s)
      ∧ tryProcessPortfolio preds p
          = some ((preds (predictionsUrl pid)).map (tagOf pid (JVal.str s))) := by
    intro p hp
    rcases hwf p hp with ⟨pid, s, hk⟩
    refine ⟨pid, s, hk, ?_⟩
    simp only [tryProcessPortfolio, hk]
    exact tagEntries_ok pid (JVal.str s) _ (fun e he => hpreds _ e he)
  have hmain : (get_portfolio_predictions_df P preds).rows
      = (P.map (specTaggedRows preds)).flatten := by
    by_cases hPE : P.isEmpty
    · have hP0 : P = [] := List.isEmpty_iff.mp hPE
      subst hP0
      simp [get_portfolio_predictions_df]
    · have hAflat : P.foldl (accStep preds) []
          = (P.map (fun p => (tryProcessPortfolio preds p).getD [])).flatten := by
        simpa using foldl_accStep preds P []
      have hmem : ∀ r ∈ P.foldl (accStep preds) [],
          ∃ p ∈ P, ∃ pid s e, portKeys p = some (pid, JVal.str s)
            ∧ e ∈ preds (predictionsUrl pid) ∧ r = tagOf pid (JVal.str s) e := by
        intro r hr
        rw [hAflat] at hr
        rcases List.mem_flatten.mp hr with ⟨lr, hlr, hrin⟩
        rcases List.mem_map.mp hlr with ⟨p, hp, rfl⟩
        rcases hforms p hp with ⟨pid, s, hk, htp⟩
        rw [htp] at hrin
        simp only [Option.getD_some] at hrin
        rcases List.mem_map.mp hrin with ⟨e, he, rfl⟩
        exact ⟨p, hp, pid, s, e, hk, he, rfl⟩
      by_cases hA0 : (P.foldl (accStep preds) []).isEmpty
      · have hget : get_portfolio_predictions_df P preds
            = { columns := ["portfolio_name"], rows := [] } := by
          simp [get_portfolio_predictions_df, hPE, hA0]
        rw [hget]
        have hnil : ∀ p ∈ P, specTaggedRows preds p = [] := by
          intro p hp
          rcases hforms p hp with ⟨pid, s, hk, htp⟩
          have hA0' : (P.map (fun p => (tryProcessPortfolio preds p).getD [])).flatten
              = [] := by
            rw [← hAflat]; exact List.isEmpty_iff.mp hA0
          have hz : (tryProcessPortfolio preds p).getD [] = [] :=
            (List.flatten_eq_nil_iff.mp hA0') _ (List.mem_map_of_mem _ hp)
          rw [htp] at hz
          simp only [Option.getD_some, List.map_eq_nil_iff] at hz
          simp [specTaggedRows, hk, hz]
        symm
        rw [List.flatten_eq_nil_iff]
        intro l hl
        rcases List.mem_map.mp hl with ⟨p, hp, rfl⟩
        exact hnil p hp
      · have hstripA : (P.foldl (accStep preds) []).map
            (fun r => r.map (fun kv => (pyStrip kv.1, kv.2)))
              = P.foldl (accStep preds) [] := by
          refine (List.map_congr_left ?_).trans (List.map_id _)
          intro r hr
          rcases hmem r hr with ⟨p, hp, pid, s, e, hk, he, rfl⟩
          exact strip_tagOf _ _ e (hpreds _ e he)
        have hcolA : "portfolio_name" ∈ collectColumns (P.foldl (accStep preds) []) := by
          have hne : P.foldl (accStep preds) [] ≠ [] := by
            intro hcc
            exact hA0 (by simp [hcc])
          rcases List.exists_mem_of_ne_nil _ hne with ⟨r, hr⟩
          rcases hmem r hr with ⟨p, hp, pid, s, e, hk, he, rfl⟩
          rcases hpreds _ e he with ⟨l, rfl, _⟩
          exact mem_collectColumns _ _ _ hr (key_mem_setKey _ _ _)
        have hget : get_portfolio_predictions_df P preds
            = mkPredictionsDF (P.foldl (accStep preds) []) := by
          simp [get_portfolio_predictions_df, hPE, hA0]
        rw [hget]
        have hrows : (mkPredictionsDF (P.foldl (accStep preds) [])).rows
            = (P.foldl (accStep preds) []).map normRow := by
          simp only [mkPredictionsDF, hstripA]
          rw [if_pos hcolA]
        rw [hrows, hAflat, List.map_flatten, List.map_map]
        congr 1
        apply List.map_congr_left
        intro p hp
        rcases hforms p hp with ⟨pid, s, hk, htp⟩
        simp only [Function.comp, htp, Option.getD_some, List.map_map]
        simp only [specTaggedRows, hk]
        apply List.map_congr_left
        intro e he
        rcases hpreds _ e he with ⟨l, rfl, _⟩
        simpa using normRow_tagOf pid s l
  refine ⟨hmain, ?_⟩
  rw [hmain, List.length_flatten, List.map_map]
  congr 1
  apply List.map_congr_left
  intro p hp
  rcases hwf p hp with ⟨pid, s, hk⟩
  simp [specTaggedRows, hk, Function.comp]

/-- Witness for `fetcher_merge_correct` at one well-formed portfolio with
one prediction. -/
theorem fetcher_merge_correct_witness :
    (get_portfolio_predictions_df
        [JVal.obj [("portfolio",
            JVal.obj [("portfolio_id", JVal.str "2"), ("name", JVal.str "Beta")])]]
        (fun _ => [JVal.obj [("ticker", JVal.str "ZZZ")]])).rows.length = 1 := by
  have h := fetcher_merge_correct
      [JVal.obj [("portfolio",
          JVal.obj [("portfolio_id", JVal.str "2"), ("name", JVal.str "Beta")])]]
      (fun _ => [JVal.obj [("ticker", JVal.str "ZZZ")]])
      (by
        intro p hp
        simp only [List.mem_singleton] at hp
        subst hp
        exact ⟨JVal.str "2", "Beta", rfl⟩)
      (by
        intro u e he
        simp only [List.mem_singleton] at he
        subst he
        refine ⟨[("ticker", JVal.str "ZZZ")], rfl, ?_⟩
        intro kv hkv
        simp only [List.mem_singleton] at hkv
        subst hkv
        rfl)
  rw [h.2]
  rfl

/-- C4 counterexample: a well-formed portfolio whose name is the literal
string "nan" loses its name tag — the merged row carries `pd.NA`, not the
portfolio's name. -/
theorem fetcher_nan_name_cex :
    (get_portfolio_predictions_df
        [JVal.obj [("portfolio",
            JVal.obj [("portfolio_id", JVal.str "7"), ("name", JVal.str "nan")])]]
        (fun _ => [JVal.obj []])).rows
      = [[("portfolio_id", JVal.str "7"), ("portfolio_name", JVal.na)]]
    ∧ JVal.na ≠ JVal.str "nan" :=
  ⟨rfl, fun h => JVal.noConfusion h⟩
